import Mathlib

/-!
Verification development for the quiz application in `src/app6.py`.

The file shallowly embeds the two components of the script:

* `generate_crypto_question_google`: the portion of the generator that runs
  after the model's response has been parsed by `json.loads`.  The HTTP call
  and the JSON parse are external; a parse or API failure makes the Python
  function return `None`, which callers below model by an oracle producing
  `none`.  Validation, the explanation-length warning and the option shuffle
  are embedded faithfully.
* the Streamlit session state machine: session fields, the render-time
  generation step with its bounded retry/dedup loop, and the four button
  handlers (submit, next, view results, restart), each embedded as a function
  on an explicit `SessionState`.

Python's `random.shuffle` is embedded as Fisher-Yates over an abstract stream
of random draws, and the Python `set` of asked question texts as a `Finset`
(a Python set retains its elements but not their insertion order).
-/

/-- Parsed JSON values in the shapes the app manipulates after `json.loads`:
strings, arrays of strings (the `options` field), and one opaque constructor
standing for any other JSON value (numbers, objects, null). -/
inductive PyVal where
  | pstr : String → PyVal
  | plist : List String → PyVal
  | pnone : PyVal
deriving DecidableEq, Repr

instance : Inhabited PyVal := ⟨PyVal.pnone⟩

/-- Parsed JSON object (a Python dict) as an association list from keys to values. -/
abbrev QDict := List (String × PyVal)

/-- Optional dict lookup: `d.get(k)` in Python terms. -/
def dictGet : QDict → String → Option PyVal
  | [], _ => none
  | (a, b) :: es, k => if a = k then some b else dictGet es k

/-- Dict indexing `d[k]`, defaulting to the opaque value when the key is absent
(the code only indexes keys whose presence it has checked). -/
def qKey (d : QDict) (k : String) : PyVal := (dictGet d k).getD PyVal.pnone

/-- Value of `question_data['question']`, the text used for deduplication. -/
def qText (d : QDict) : PyVal := qKey d "question"

/-- Keys demanded by the validation in `generate_crypto_question_google`. -/
def required_keys : List String :=
  ["question", "type", "options", "answer", "difficulty", "explanation"]

/-- Check `all(key in question_data for key in required_keys)`. -/
def hasAllKeys (d : QDict) : Bool := required_keys.all fun k => (dictGet d k).isSome

/-- Check `isinstance(question_data['options'], list)`. -/
def isListVal : PyVal → Bool
  | PyVal.plist _ => true
  | _ => false

/-- Contents of `question_data['options']` (read only after the list check). -/
def getOptions (d : QDict) : List String :=
  match qKey d "options" with
  | PyVal.plist l => l
  | _ => []

/-- Python membership test `v in options` of a parsed value against the options
list; a non-string value is not equal to any string element. -/
def pyIn (v : PyVal) (l : List String) : Bool :=
  match v with
  | PyVal.pstr a => decide (a ∈ l)
  | _ => false

/-- Validation block of `generate_crypto_question_google` (src/app6.py lines
90-101): all required keys present; `options` is a list; for type `"mc"` the
answer must be a member of the options; for type `"tf"` the answer must be the
literal `"Verdadero"` or `"Falso"`.  Returns `false` exactly when the Python
code raises `ValueError`, which the function catches before returning `None`.
The explanation-length check (lines 103-105) only emits a warning and never
fails, so it does not appear here. -/
def validate_question_data (d : QDict) : Bool :=
  hasAllKeys d
  && isListVal (qKey d "options")
  && (if qKey d "type" = PyVal.pstr "mc" then pyIn (qKey d "answer") (getOptions d)
      else true)
  && (if qKey d "type" = PyVal.pstr "tf" then
        decide (qKey d "answer" = PyVal.pstr "Verdadero"
          ∨ qKey d "answer" = PyVal.pstr "Falso")
      else true)

/-- Warning condition of lines 103-105: the explanation is not a string or is
shorter than 20 characters.  Advisory only; the question is still returned. -/
def short_explanation_warning (d : QDict) : Bool :=
  match qKey d "explanation" with
  | PyVal.pstr e => decide (e.length < 20)
  | _ => true

/-- Python parallel assignment `x[i], x[j] = x[j], x[i]`. -/
def listSwap {α : Type} [Inhabited α] (xs : List α) (i j : Nat) : List α :=
  (xs.set i (xs.getD j default)).set j (xs.getD i default)

/-- Fisher-Yates pass of CPython's `random.shuffle`: for `i = n, n-1, ..., 1`
swap `x[i]` with `x[j]` for a random `j ≤ i`.  The random draws are abstracted
as a stream `rand` of naturals, reduced into range by `% (i+1)`. -/
def pyShuffleAux {α : Type} [Inhabited α] (rand : Nat → Nat) : Nat → List α → List α
  | 0, xs => xs
  | i + 1, xs => pyShuffleAux rand i (listSwap xs (i + 1) (rand (i + 1) % (i + 2)))

/-- Model of `random.shuffle(x)` (in-place in Python, functional here). -/
def pyShuffle {α : Type} [Inhabited α] (rand : Nat → Nat) (xs : List α) : List α :=
  pyShuffleAux rand (xs.length - 1) xs

/-- In-place dict update `question_data['options'] = shuffled`, modelled
functionally: the binding of key `k` is replaced, every other binding is kept. -/
def setKey : QDict → String → PyVal → QDict
  | [], _, _ => []
  | (a, b) :: es, k, v => (if a = k then (k, v) else (a, b)) :: setKey es k v

/-- Post-parse body of `generate_crypto_question_google` (src/app6.py lines
87-131): validate the parsed dict, shuffle the options in place when the type
is `"mc"`, and return the dict; any validation failure is caught and the
function returns `None`.  The API call and `json.loads` happen before this
point; their failures also return `None` and are modelled at the call site. -/
def generate_crypto_question_google (rand : Nat → Nat) (d : QDict) : Option QDict :=
  if validate_question_data d then
    some (if qKey d "type" = PyVal.pstr "mc" then
            setKey d "options" (PyVal.plist (pyShuffle rand (getOptions d)))
          else d)
  else none

/-- Session state of the Streamlit app (src/app6.py lines 134-144), with the
field names of the script.  `total_questions` counts answered questions;
`asked_questions_set` is the Python `set` of asked question texts, embedded as
a `Finset` because a Python set keeps its elements but not their insertion
order. -/
structure SessionState where
  current_question : Option QDict
  question_requested : Bool
  user_answer : Option String
  submitted : Bool
  feedback : Option String
  correct_count : Nat
  total_questions : Nat
  max_questions : Nat
  quiz_finished : Bool
  asked_questions_set : Finset PyVal
deriving DecidableEq

/-- Initial session state (src/app6.py lines 134-144). -/
def initialState : SessionState where
  current_question := none
  question_requested := false
  user_answer := none
  submitted := false
  feedback := none
  correct_count := 0
  total_questions := 0
  max_questions := 10
  quiz_finished := false
  asked_questions_set := ∅

/-- Retry/dedup loop of the generation step (src/app6.py lines 167-186).
`gen k` is the value `generate_crypto_question_google()` produced on attempt
`k` (`none` for an API error, a JSON parse error or a schema violation).
`fuel` is the remaining attempt budget (`max_attempts - attempts`, initially
5).  A generated dict whose `question` text is already in the history is
discarded and the loop retries; a novel dict is accepted, its text added to
the history, and the loop stops. -/
def retryLoop (gen : Nat → Option QDict) :
    Nat → Nat → Finset PyVal → Option QDict × Finset PyVal
  | 0, _, hist => (none, hist)
  | fuel + 1, k, hist =>
    match gen k with
    | none => retryLoop gen fuel (k + 1) hist
    | some d =>
      if qText d ∈ hist then retryLoop gen fuel (k + 1) hist
      else (some d, insert (qText d) hist)

/-- Render-time generation step (src/app6.py lines 160-207).  Inside the
not-finished branch: when no question is loaded and none is requested, either
run the retry/dedup loop (when fewer than `max_questions` have been answered)
or, when exactly `max_questions` have been answered, transition to the
finished screen.  On loop success the question is stored and the transient
fields reset; on exhaustion an error is displayed (see `genErrorShown`) and
only `question_requested` is reset. -/
def genTransition (gen : Nat → Option QDict) (s : SessionState) : SessionState :=
  if s.quiz_finished = false ∧ s.current_question = none ∧ s.question_requested = false then
    if s.total_questions < s.max_questions then
      match retryLoop gen 5 0 s.asked_questions_set with
      | (some q, hist) =>
        { s with current_question := some q, user_answer := none, submitted := false,
                 feedback := none, question_requested := false,
                 asked_questions_set := hist }
      | (none, hist) =>
        { s with question_requested := false, asked_questions_set := hist }
    else if s.total_questions = s.max_questions ∧ s.quiz_finished = false then
      { s with quiz_finished := true, current_question := none, user_answer := none,
               submitted := false, feedback := none, question_requested := false }
    else s
  else s

/-- Condition under which the render of `genTransition` calls `st.error`
with the "no unique valid question after 5 attempts" message (src/app6.py
line 196): the generation guard held and the retry loop was exhausted. -/
def genErrorShown (gen : Nat → Option QDict) (s : SessionState) : Bool :=
  if s.quiz_finished = false ∧ s.current_question = none
      ∧ s.question_requested = false ∧ s.total_questions < s.max_questions then
    (retryLoop gen 5 0 s.asked_questions_set).1.isNone
  else false

/-- Python truthiness of the feedback string: `None` and `""` are falsy. -/
def truthyFeedback : Option String → Bool
  | none => false
  | some f => !f.isEmpty

/-- Enviar Respuesta handler (src/app6.py lines 215-240).  Reachable only in
the not-finished branch, with a (truthy) current question, before submission,
and with a chosen radio option `choice`; it records the answer, compares it to
`q_data['answer']`, sets the feedback message, bumps `correct_count` on a
match and always bumps `total_questions`. -/
def submitTransition (choice : String) (s : SessionState) : SessionState :=
  if s.quiz_finished = false then
    match s.current_question with
    | some q =>
      if q ≠ [] ∧ s.submitted = false then
        if PyVal.pstr choice = qKey q "answer" then
          { s with user_answer := some choice, submitted := true,
                   feedback := some "✅ ¡Correcto!",
                   correct_count := s.correct_count + 1,
                   total_questions := s.total_questions + 1 }
        else
          { s with user_answer := some choice, submitted := true,
                   feedback := some "❌ Incorrecto.",
                   total_questions := s.total_questions + 1 }
      else s
    | none => s
  else s

/-- Siguiente Pregunta handler (src/app6.py lines 261-269).  Shown in the
feedback view (truthy question, submitted, truthy feedback) while fewer than
`max_questions` answers have been recorded; clears the transient fields so the
next render generates a new question. -/
def nextTransition (s : SessionState) : SessionState :=
  if s.quiz_finished = false then
    match s.current_question with
    | some q =>
      if q ≠ [] ∧ s.submitted = true ∧ truthyFeedback s.feedback = true then
        if s.total_questions < s.max_questions then
          { s with current_question := none, user_answer := none, submitted := false,
                   feedback := none, question_requested := false }
        else s
      else s
    | none => s
  else s

/-- Ver Resultados Finales handler (src/app6.py lines 270-279).  Shown in the
feedback view once `max_questions` answers have been recorded; sets
`quiz_finished` and clears the question area (`question_requested` is left as
it was, per the code comment). -/
def viewResultsTransition (s : SessionState) : SessionState :=
  if s.quiz_finished = false then
    match s.current_question with
    | some q =>
      if q ≠ [] ∧ s.submitted = true ∧ truthyFeedback s.feedback = true then
        if s.total_questions < s.max_questions then s
        else
          { s with quiz_finished := true, current_question := none,
                   user_answer := none, submitted := false, feedback := none }
      else s
    | none => s
  else s

/-- Reiniciar Quiz handler (src/app6.py lines 310-322).  Shown only on the
finished screen; resets every session field to its initial value except
`max_questions`, which stays as it was. -/
def restartTransition (s : SessionState) : SessionState :=
  if s.quiz_finished = true then
    { current_question := none, question_requested := false, user_answer := none,
      submitted := false, feedback := none, correct_count := 0, total_questions := 0,
      max_questions := s.max_questions, quiz_finished := false,
      asked_questions_set := ∅ }
  else s

/-- User-visible events that mutate the session state: a render tick that may
generate a question (parameterised by the generator oracle), and the four
buttons. -/
inductive QuizAction where
  | render : (Nat → Option QDict) → QuizAction
  | submitAnswer : String → QuizAction
  | nextQuestion : QuizAction
  | viewResults : QuizAction
  | restart : QuizAction

/-- One state-machine step per action. -/
def step : QuizAction → SessionState → SessionState
  | QuizAction.render gen, s => genTransition gen s
  | QuizAction.submitAnswer c, s => submitTransition c s
  | QuizAction.nextQuestion, s => nextTransition s
  | QuizAction.viewResults, s => viewResultsTransition s
  | QuizAction.restart, s => restartTransition s

/-- Session states reachable from the initial state by any sequence of events. -/
inductive Reachable : SessionState → Prop where
  | init : Reachable initialState
  | step : ∀ (a : QuizAction) (s : SessionState), Reachable s → Reachable (step a s)

/-! ### Helper lemmas: swaps and the Fisher-Yates shuffle -/

theorem set_getD_self {α : Type} (d : α) :
    ∀ (xs : List α) (i : Nat), i < xs.length → xs.set i (xs.getD i d) = xs
  | [], i, h => absurd h (by simp)
  | y :: ys, 0, _ => by simp
  | y :: ys, i + 1, h => by
      simp only [List.getD_cons_succ, List.set_cons_succ, List.cons.injEq, true_and]
      exact set_getD_self d ys i (by simpa using h)

theorem getD_cons_set_perm {α : Type} (d x : α) :
    ∀ (xs : List α) (j : Nat), j < xs.length →
      List.Perm (xs.getD j d :: xs.set j x) (x :: xs)
  | [], j, h => absurd h (by simp)
  | y :: ys, 0, _ => by
      simp only [List.getD_cons_zero, List.set_cons_zero]
      exact List.Perm.swap x y ys
  | y :: ys, j + 1, h => by
      have hj : j < ys.length := by simpa using h
      simp only [List.getD_cons_succ, List.set_cons_succ]
      exact (List.Perm.swap y (ys.getD j d) (ys.set j x)).trans
        (((getD_cons_set_perm d x ys j hj).cons y).trans (List.Perm.swap x y ys))

theorem listSwap_comm {α : Type} [Inhabited α] (xs : List α) (i j : Nat) :
    listSwap xs i j = listSwap xs j i := by
  by_cases hij : i = j
  · subst hij; rfl
  · unfold listSwap
    exact List.set_comm _ _ xs hij

theorem listSwap_perm_le {α : Type} [Inhabited α] :
    ∀ (xs : List α) (i j : Nat), i ≤ j → j < xs.length →
      List.Perm (listSwap xs i j) xs
  | [], _, j, _, h => absurd h (by simp)
  | y :: ys, 0, 0, _, _ => by simp [listSwap]
  | y :: ys, 0, j + 1, _, h => by
      have hj : j < ys.length := by simpa using h
      unfold listSwap
      simp only [List.getD_cons_zero, List.getD_cons_succ, List.set_cons_zero,
        List.set_cons_succ]
      exact getD_cons_set_perm default y ys j hj
  | y :: ys, i + 1, 0, hij, h => absurd hij (by omega)
  | y :: ys, i + 1, j + 1, hij, h => by
      have hj : j < ys.length := by simpa using h
      unfold listSwap
      simp only [List.getD_cons_succ, List.set_cons_succ]
      exact List.Perm.cons y (listSwap_perm_le ys i j (by omega) hj)

theorem listSwap_perm {α : Type} [Inhabited α] (xs : List α) (i j : Nat)
    (hi : i < xs.length) (hj : j < xs.length) : List.Perm (listSwap xs i j) xs := by
  rcases Nat.le_total i j with h | h
  · exact listSwap_perm_le xs i j h hj
  · rw [listSwap_comm]
    exact listSwap_perm_le xs j i h hi

theorem length_listSwap {α : Type} [Inhabited α] (xs : List α) (i j : Nat) :
    (listSwap xs i j).length = xs.length := by
  simp [listSwap]

theorem pyShuffleAux_perm {α : Type} [Inhabited α] (rand : Nat → Nat) :
    ∀ (n : Nat) (xs : List α), n < xs.length →
      List.Perm (pyShuffleAux rand n xs) xs
  | 0, xs, _ => List.Perm.refl xs
  | n + 1, xs, h => by
      rw [pyShuffleAux]
      have hlen : (listSwap xs (n + 1) (rand (n + 1) % (n + 2))).length = xs.length :=
        length_listSwap xs _ _
      have hm : rand (n + 1) % (n + 2) < n + 2 := Nat.mod_lt _ (by omega)
      have h1 : List.Perm
          (pyShuffleAux rand n (listSwap xs (n + 1) (rand (n + 1) % (n + 2))))
          (listSwap xs (n + 1) (rand (n + 1) % (n + 2))) :=
        pyShuffleAux_perm rand n _ (by omega)
      exact h1.trans (listSwap_perm xs (n + 1) _ h (by omega))

/-- The shuffle of `generate_crypto_question_google` is a permutation. -/
theorem pyShuffle_perm {α : Type} [Inhabited α] (rand : Nat → Nat) (xs : List α) :
    List.Perm (pyShuffle rand xs) xs := by
  cases xs with
  | nil => simp [pyShuffle, pyShuffleAux]
  | cons y ys =>
      exact pyShuffleAux_perm rand _ _ (by simp only [List.length_cons]; omega)

/-! ### Helper lemmas: dict update -/

theorem dictGet_setKey_self : ∀ (d : QDict) (k : String) (v : PyVal),
    (dictGet d k).isSome = true → dictGet (setKey d k v) k = some v
  | [], k, v, h => by simp [dictGet] at h
  | (a, b) :: es, k, v, h => by
      rw [setKey]
      by_cases hak : a = k
      · rw [if_pos hak]
        simp [dictGet]
      · rw [if_neg hak]
        have h' : (dictGet es k).isSome = true := by
          simpa [dictGet, hak] using h
        simpa [dictGet, hak] using dictGet_setKey_self es k v h'

theorem dictGet_setKey_ne : ∀ (d : QDict) (k k2 : String) (v : PyVal), k2 ≠ k →
    dictGet (setKey d k v) k2 = dictGet d k2
  | [], _, _, _, _ => rfl
  | (a, b) :: es, k, k2, v, h => by
      rw [setKey]
      by_cases hak : a = k
      · rw [if_pos hak]
        subst hak
        simpa [dictGet, Ne.symm h] using dictGet_setKey_ne es a k2 v h
      · rw [if_neg hak]
        by_cases hak2 : a = k2
        · simp [dictGet, hak2]
        · simpa [dictGet, hak2] using dictGet_setKey_ne es k k2 v h

theorem qKey_setKey_ne (d : QDict) (k k2 : String) (v : PyVal) (h : k2 ≠ k) :
    qKey (setKey d k v) k2 = qKey d k2 := by
  simp [qKey, dictGet_setKey_ne d k k2 v h]

theorem options_key_present (d : QDict) (h : isListVal (qKey d "options") = true) :
    (dictGet d "options").isSome = true := by
  cases hq : dictGet d "options" with
  | none => rw [qKey, hq] at h; simp [isListVal] at h
  | some v => simp

theorem getOptions_setKey (d : QDict) (l : List String)
    (h : (dictGet d "options").isSome = true) :
    getOptions (setKey d "options" (PyVal.plist l)) = l := by
  simp [getOptions, qKey, dictGet_setKey_self d "options" (PyVal.plist l) h]

/-! ### Helper lemmas: the retry/dedup loop -/

theorem retryLoop_none_frame (gen : Nat → Option QDict) :
    ∀ (fuel k : Nat) (hist : Finset PyVal),
      (retryLoop gen fuel k hist).1 = none → (retryLoop gen fuel k hist).2 = hist
  | 0, _, _, _ => rfl
  | fuel + 1, k, hist, h => by
      cases hg : gen k with
      | none =>
          simp only [retryLoop, hg] at h ⊢
          exact retryLoop_none_frame gen fuel (k + 1) hist h
      | some d =>
          simp only [retryLoop, hg] at h ⊢
          by_cases hd : qText d ∈ hist
          · simp only [if_pos hd] at h ⊢
            exact retryLoop_none_frame gen fuel (k + 1) hist h
          · simp only [if_neg hd] at h
            simp at h

theorem retryLoop_some_insert (gen : Nat → Option QDict) :
    ∀ (fuel k : Nat) (hist : Finset PyVal) (q : QDict) (h2 : Finset PyVal),
      retryLoop gen fuel k hist = (some q, h2) →
      qText q ∉ hist ∧ h2 = insert (qText q) hist
  | 0, _, hist, q, h2, h => by simp [retryLoop] at h
  | fuel + 1, k, hist, q, h2, h => by
      cases hg : gen k with
      | none =>
          simp only [retryLoop, hg] at h
          exact retryLoop_some_insert gen fuel (k + 1) hist q h2 h
      | some d =>
          simp only [retryLoop, hg] at h
          by_cases hd : qText d ∈ hist
          · simp only [if_pos hd] at h
            exact retryLoop_some_insert gen fuel (k + 1) hist q h2 h
          · simp only [if_neg hd, Prod.mk.injEq, Option.some.injEq] at h
            obtain ⟨h1, h3⟩ := h
            subst h1
            exact ⟨hd, h3.symm⟩

theorem retryLoop_fail_all (gen : Nat → Option QDict) :
    ∀ (fuel k : Nat) (hist : Finset PyVal),
      (∀ i, k ≤ i → i < k + fuel → ∀ d, gen i = some d → qText d ∈ hist) →
      retryLoop gen fuel k hist = (none, hist)
  | 0, _, _, _ => rfl
  | fuel + 1, k, hist, hall => by
      cases hg : gen k with
      | none =>
          simp only [retryLoop, hg]
          exact retryLoop_fail_all gen fuel (k + 1) hist
            (fun i hi1 hi2 d hd => hall i (by omega) (by omega) d hd)
      | some d =>
          have hmem : qText d ∈ hist := hall k (Nat.le_refl k) (by omega) d hg
          simp only [retryLoop, hg, if_pos hmem]
          exact retryLoop_fail_all gen fuel (k + 1) hist
            (fun i hi1 hi2 e he => hall i (by omega) (by omega) e he)

theorem retryLoop_agree (gen gen2 : Nat → Option QDict) :
    ∀ (fuel k : Nat) (hist : Finset PyVal),
      (∀ i, k ≤ i → i < k + fuel → gen i = gen2 i) →
      retryLoop gen fuel k hist = retryLoop gen2 fuel k hist
  | 0, _, _, _ => rfl
  | fuel + 1, k, hist, hagree => by
      have hk : gen2 k = gen k := (hagree k (Nat.le_refl k) (by omega)).symm
      cases hg : gen k with
      | none =>
          simp only [retryLoop, hg, hk]
          exact retryLoop_agree gen gen2 fuel (k + 1) hist
            (fun i hi1 hi2 => hagree i (by omega) (by omega))
      | some d =>
          by_cases hd : qText d ∈ hist
          · simp only [retryLoop, hg, hk, if_pos hd]
            exact retryLoop_agree gen gen2 fuel (k + 1) hist
              (fun i hi1 hi2 => hagree i (by omega) (by omega))
          · simp only [retryLoop, hg, hk, if_neg hd]

/-! ### The session invariant -/

/-- Inductive invariant of the session state machine: the answered count stays
within the bound, the quiz is finished only at the bound, an unanswered loaded
question implies room for one more answer, the score never exceeds the
answered count, and `max_questions` is the constant 10. -/
def SessionInv (s : SessionState) : Prop :=
  s.total_questions ≤ s.max_questions
  ∧ (s.quiz_finished = true → s.total_questions = s.max_questions)
  ∧ (∀ q, s.current_question = some q → s.submitted = false →
      s.total_questions < s.max_questions)
  ∧ s.correct_count ≤ s.total_questions
  ∧ s.max_questions = 10

theorem SessionInv_init : SessionInv initialState := by
  refine ⟨?_, ?_, ?_, ?_, ?_⟩ <;> simp [initialState]

theorem SessionInv_mk {cq : Option QDict} {qr : Bool} {ua : Option String}
    {sub : Bool} {fb : Option String} {cc tq mq : Nat} {qf : Bool}
    {hist : Finset PyVal}
    (e1 : tq ≤ mq) (e2 : qf = true → tq = mq)
    (e3 : ∀ q, cq = some q → sub = false → tq < mq)
    (e4 : cc ≤ tq) (e5 : mq = 10) :
    SessionInv (SessionState.mk cq qr ua sub fb cc tq mq qf hist) :=
  ⟨e1, e2, e3, e4, e5⟩

theorem SessionInv_gen (gen : Nat → Option QDict) (s : SessionState)
    (h : SessionInv s) : SessionInv (genTransition gen s) := by
  obtain ⟨cq, qr, ua, sub, fb, cc, tq, mq, qf, hist⟩ := s
  obtain ⟨h1, h2, h3, h4, h5⟩ := h
  replace h1 : tq ≤ mq := h1
  replace h2 : qf = true → tq = mq := h2
  replace h3 : ∀ q, cq = some q → sub = false → tq < mq := h3
  replace h4 : cc ≤ tq := h4
  replace h5 : mq = 10 := h5
  simp only [genTransition]
  split
  · rename_i hguard
    obtain ⟨hfin, hcur, hreq⟩ := hguard
    replace hfin : qf = false := hfin
    replace hcur : cq = none := hcur
    split
    · rename_i hlt
      replace hlt : tq < mq := hlt
      cases hloop : retryLoop gen 5 0 hist with
      | mk fst snd =>
        cases fst with
        | some q =>
            exact SessionInv_mk h1
              (fun hf => Bool.noConfusion (hfin.symm.trans hf))
              (fun q' _ _ => hlt) h4 h5
        | none =>
            exact SessionInv_mk h1 h2 (fun q' hq' hs => h3 q' hq' hs) h4 h5
    · split
      · rename_i hmax
        exact SessionInv_mk h1 (fun _ => hmax.1)
          (fun q' hq' _ => Option.noConfusion hq') h4 h5
      · exact SessionInv_mk h1 h2 h3 h4 h5
  · exact SessionInv_mk h1 h2 h3 h4 h5

theorem SessionInv_submit (choice : String) (s : SessionState)
    (h : SessionInv s) : SessionInv (submitTransition choice s) := by
  obtain ⟨cq, qr, ua, sub, fb, cc, tq, mq, qf, hist⟩ := s
  obtain ⟨h1, h2, h3, h4, h5⟩ := h
  replace h1 : tq ≤ mq := h1
  replace h2 : qf = true → tq = mq := h2
  replace h3 : ∀ q, cq = some q → sub = false → tq < mq := h3
  replace h4 : cc ≤ tq := h4
  replace h5 : mq = 10 := h5
  cases cq with
  | none =>
      simp only [submitTransition]
      split
      · exact SessionInv_mk h1 h2 (fun q hq _ => Option.noConfusion hq) h4 h5
      · exact SessionInv_mk h1 h2 (fun q hq _ => Option.noConfusion hq) h4 h5
  | some q =>
      simp only [submitTransition]
      split
      · rename_i hfin
        replace hfin : qf = false := hfin
        split
        · rename_i hcond
          have hsub : sub = false := hcond.2
          have hlt : tq < mq := h3 q rfl hsub
          split
          · exact SessionInv_mk (by omega)
              (fun hf => Bool.noConfusion (hfin.symm.trans hf))
              (fun q' _ hs => Bool.noConfusion hs) (by omega) h5
          · exact SessionInv_mk (by omega)
              (fun hf => Bool.noConfusion (hfin.symm.trans hf))
              (fun q' _ hs => Bool.noConfusion hs) (by omega) h5
        · exact SessionInv_mk h1 h2 h3 h4 h5
      · exact SessionInv_mk h1 h2 h3 h4 h5

theorem SessionInv_next (s : SessionState) (h : SessionInv s) :
    SessionInv (nextTransition s) := by
  obtain ⟨cq, qr, ua, sub, fb, cc, tq, mq, qf, hist⟩ := s
  obtain ⟨h1, h2, h3, h4, h5⟩ := h
  replace h1 : tq ≤ mq := h1
  replace h2 : qf = true → tq = mq := h2
  replace h3 : ∀ q, cq = some q → sub = false → tq < mq := h3
  replace h4 : cc ≤ tq := h4
  replace h5 : mq = 10 := h5
  cases cq with
  | none =>
      simp only [nextTransition]
      split
      · exact SessionInv_mk h1 h2 (fun q hq _ => Option.noConfusion hq) h4 h5
      · exact SessionInv_mk h1 h2 (fun q hq _ => Option.noConfusion hq) h4 h5
  | some q =>
      simp only [nextTransition]
      split
      · rename_i hfin
        replace hfin : qf = false := hfin
        split
        · split
          · exact SessionInv_mk h1
              (fun hf => Bool.noConfusion (hfin.symm.trans hf))
              (fun q' hq' _ => Option.noConfusion hq') h4 h5
          · exact SessionInv_mk h1 h2 h3 h4 h5
        · exact SessionInv_mk h1 h2 h3 h4 h5
      · exact SessionInv_mk h1 h2 h3 h4 h5

theorem SessionInv_viewResults (s : SessionState) (h : SessionInv s) :
    SessionInv (viewResultsTransition s) := by
  obtain ⟨cq, qr, ua, sub, fb, cc, tq, mq, qf, hist⟩ := s
  obtain ⟨h1, h2, h3, h4, h5⟩ := h
  replace h1 : tq ≤ mq := h1
  replace h2 : qf = true → tq = mq := h2
  replace h3 : ∀ q, cq = some q → sub = false → tq < mq := h3
  replace h4 : cc ≤ tq := h4
  replace h5 : mq = 10 := h5
  cases cq with
  | none =>
      simp only [viewResultsTransition]
      split
      · exact SessionInv_mk h1 h2 (fun q hq _ => Option.noConfusion hq) h4 h5
      · exact SessionInv_mk h1 h2 (fun q hq _ => Option.noConfusion hq) h4 h5
  | some q =>
      simp only [viewResultsTransition]
      split
      · rename_i hfin
        split
        · split
          · exact SessionInv_mk h1 h2 h3 h4 h5
          · rename_i hge
            replace hge : ¬ (tq < mq) := hge
            exact SessionInv_mk h1 (fun _ => by omega)
              (fun q' hq' _ => Option.noConfusion hq') h4 h5
        · exact SessionInv_mk h1 h2 h3 h4 h5
      · exact SessionInv_mk h1 h2 h3 h4 h5

theorem SessionInv_restart (s : SessionState) (h : SessionInv s) :
    SessionInv (restartTransition s) := by
  obtain ⟨cq, qr, ua, sub, fb, cc, tq, mq, qf, hist⟩ := s
  obtain ⟨h1, h2, h3, h4, h5⟩ := h
  replace h1 : tq ≤ mq := h1
  replace h2 : qf = true → tq = mq := h2
  replace h3 : ∀ q, cq = some q → sub = false → tq < mq := h3
  replace h4 : cc ≤ tq := h4
  replace h5 : mq = 10 := h5
  simp only [restartTransition]
  split
  · exact SessionInv_mk (by omega) (fun hf => Bool.noConfusion hf)
      (fun q' hq' _ => Option.noConfusion hq') (by omega) h5
  · exact SessionInv_mk h1 h2 h3 h4 h5

theorem reachable_inv (s : SessionState) (h : Reachable s) : SessionInv s := by
  induction h with
  | init => exact SessionInv_init
  | step a t _ ih =>
      cases a with
      | render gen => exact SessionInv_gen gen t ih
      | submitAnswer c => exact SessionInv_submit c t ih
      | nextQuestion => exact SessionInv_next t ih
      | viewResults => exact SessionInv_viewResults t ih
      | restart => exact SessionInv_restart t ih

/-- Outside of an explicit restart, a finished quiz stays finished. -/
theorem quiz_finished_persists (a : QuizAction) (s : SessionState)
    (hfin : s.quiz_finished = true) (ha : a ≠ QuizAction.restart) :
    (step a s).quiz_finished = true := by
  obtain ⟨cq, qr, ua, sub, fb, cc, tq, mq, qf, hist⟩ := s
  replace hfin : qf = true := hfin
  subst hfin
  cases a with
  | render gen =>
      show (genTransition gen _).quiz_finished = true
      simp only [genTransition]
      split
      · rename_i hguard
        exact Bool.noConfusion (hguard.1 : (true : Bool) = false)
      · rfl
  | submitAnswer c =>
      show (submitTransition c _).quiz_finished = true
      cases cq with
      | none => simp only [submitTransition]; split <;> rfl
      | some q =>
          simp only [submitTransition]
          split
          · rename_i hf
            exact Bool.noConfusion (hf : (true : Bool) = false)
          · rfl
  | nextQuestion =>
      show (nextTransition _).quiz_finished = true
      cases cq with
      | none => simp only [nextTransition]; split <;> rfl
      | some q =>
          simp only [nextTransition]
          split
          · rename_i hf
            exact Bool.noConfusion (hf : (true : Bool) = false)
          · rfl
  | viewResults =>
      show (viewResultsTransition _).quiz_finished = true
      cases cq with
      | none => simp only [viewResultsTransition]; split <;> rfl
      | some q =>
          simp only [viewResultsTransition]
          split
          · rename_i hf
            exact Bool.noConfusion (hf : (true : Bool) = false)
          · rfl
  | restart => exact absurd rfl ha

/-! ### Helper lemmas: validation structure -/

theorem validate_parts (d : QDict) (h : validate_question_data d = true) :
    hasAllKeys d = true
    ∧ isListVal (qKey d "options") = true
    ∧ (qKey d "type" = PyVal.pstr "mc" →
        pyIn (qKey d "answer") (getOptions d) = true)
    ∧ (qKey d "type" = PyVal.pstr "tf" →
        qKey d "answer" = PyVal.pstr "Verdadero"
          ∨ qKey d "answer" = PyVal.pstr "Falso") := by
  unfold validate_question_data at h
  simp only [Bool.and_eq_true] at h
  obtain ⟨⟨⟨ha, hb⟩, hc⟩, hd2⟩ := h
  refine ⟨ha, hb, ?_, ?_⟩
  · intro hmc
    rw [if_pos hmc] at hc
    exact hc
  · intro htf
    rw [if_pos htf] at hd2
    simpa using hd2

theorem pyIn_true_iff (v : PyVal) (l : List String) :
    pyIn v l = true ↔ ∃ a, v = PyVal.pstr a ∧ a ∈ l := by
  cases v <;> simp [pyIn]

/-! ### Concrete parsed responses -/

/-- Stream of random draws that always returns 0. -/
def rand0 : Nat → Nat := fun _ => 0

/-- Well-formed multiple-choice response with 5 distinct options. -/
def exMc5 : QDict :=
  [("question", PyVal.pstr "P1"),
   ("type", PyVal.pstr "mc"),
   ("options", PyVal.plist ["Op A", "Op B", "Op C", "Op D", "Op E"]),
   ("answer", PyVal.pstr "Op C"),
   ("difficulty", PyVal.pstr "Intermedio"),
   ("explanation", PyVal.pstr "Una explicacion con longitud suficiente del tema.")]

/-- What `generate_crypto_question_google` returns on `exMc5` with draws `rand0`. -/
def exMc5gen : QDict :=
  setKey exMc5 "options" (PyVal.plist (pyShuffle rand0 (getOptions exMc5)))

/-- Multiple-choice response with only three options, one of them repeated. -/
def exMc3 : QDict :=
  [("question", PyVal.pstr "P2"),
   ("type", PyVal.pstr "mc"),
   ("options", PyVal.plist ["A", "A", "B"]),
   ("answer", PyVal.pstr "A"),
   ("difficulty", PyVal.pstr "Intermedio"),
   ("explanation", PyVal.pstr "Texto explicativo con longitud adecuada aqui.")]

/-- True-false response whose answer is the English literal `"True"`. -/
def exTfTrue : QDict :=
  [("question", PyVal.pstr "P3"),
   ("type", PyVal.pstr "tf"),
   ("options", PyVal.plist ["True", "False"]),
   ("answer", PyVal.pstr "True"),
   ("difficulty", PyVal.pstr "Intermedio"),
   ("explanation", PyVal.pstr "Texto explicativo con longitud adecuada aqui.")]

/-- True-false response whose answer is the Spanish literal `"Verdadero"`. -/
def exTfVerdadero : QDict :=
  [("question", PyVal.pstr "P4"),
   ("type", PyVal.pstr "tf"),
   ("options", PyVal.plist ["Verdadero", "Falso"]),
   ("answer", PyVal.pstr "Verdadero"),
   ("difficulty", PyVal.pstr "Intermedio"),
   ("explanation", PyVal.pstr "Texto explicativo con longitud adecuada aqui.")]

/-! ### C1 -/

/-- C1 counterexample: a parsed mc response with three options, two of them
equal, passes validation and is returned by the generator, so neither the
`|options| == 5` condition nor pairwise distinctness is enforced; only
membership of the answer is checked. -/
theorem mc_schema_counts_unchecked :
    validate_question_data exMc3 = true
    ∧ (generate_crypto_question_google rand0 exMc3).isSome = true
    ∧ (getOptions exMc3).length ≠ 5
    ∧ ¬ (getOptions exMc3).Nodup := by
  refine ⟨by decide, by decide, by decide, by decide⟩

/-- C1 (amended): for mc responses the generator enforces only the membership
condition `answer ∈ options`: a returned mc question always satisfies it, and
an mc response violating it is rejected (the function returns `None`); option
count and distinctness are not validated. -/
theorem mc_answer_membership_enforced (rand : Nat → Nat) (d res : QDict)
    (hmc : qKey d "type" = PyVal.pstr "mc") :
    (generate_crypto_question_google rand d = some res →
       pyIn (qKey res "answer") (getOptions res) = true)
    ∧ (pyIn (qKey d "answer") (getOptions d) = false →
       generate_crypto_question_google rand d = none) := by
  constructor
  · intro hgen
    unfold generate_crypto_question_google at hgen
    by_cases hval : validate_question_data d = true
    · rw [if_pos hval, if_pos hmc] at hgen
      simp only [Option.some.injEq] at hgen
      obtain ⟨ha, hb, hmcimp, _⟩ := validate_parts d hval
      obtain ⟨a, hva, hmem⟩ := (pyIn_true_iff _ _).mp (hmcimp hmc)
      have hpres := options_key_present d hb
      have hopts := getOptions_setKey d (pyShuffle rand (getOptions d)) hpres
      have hans : qKey (setKey d "options" (PyVal.plist (pyShuffle rand (getOptions d)))) "answer"
          = qKey d "answer" :=
        qKey_setKey_ne d "options" "answer" _ (by decide)
      rw [← hgen, hans, hopts, hva]
      simp only [pyIn, decide_eq_true_eq]
      exact (pyShuffle_perm rand (getOptions d)).mem_iff.mpr hmem
    · rw [if_neg hval] at hgen
      cases hgen
  · intro hpy
    have hval : validate_question_data d = false := by
      unfold validate_question_data
      rw [hmc, if_pos rfl, hpy]
      simp
    simp [generate_crypto_question_google, hval]

theorem mc_answer_membership_enforced_witness :
    (generate_crypto_question_google rand0 exMc5 = some exMc5gen →
       pyIn (qKey exMc5gen "answer") (getOptions exMc5gen) = true)
    ∧ (pyIn (qKey exMc5 "answer") (getOptions exMc5) = false →
       generate_crypto_question_google rand0 exMc5 = none) :=
  mc_answer_membership_enforced rand0 exMc5 exMc5gen (by decide)

/-! ### C2 -/

/-- C2 counterexample: a parsed true-false response whose answer is the string
`"True"` is rejected by validation (the generator returns `None`), while one
whose answer is `"Verdadero"` is accepted, so acceptance is not equivalent to
membership in the set of English literals. -/
theorem tf_accepts_spanish_not_english :
    ¬ (validate_question_data exTfTrue = true ↔
        (qKey exTfTrue "answer" = PyVal.pstr "True"
          ∨ qKey exTfTrue "answer" = PyVal.pstr "False"))
    ∧ generate_crypto_question_google rand0 exTfTrue = none
    ∧ validate_question_data exTfVerdadero = true
    ∧ generate_crypto_question_google rand0 exTfVerdadero = some exTfVerdadero := by
  refine ⟨by decide, by decide, by decide, by decide⟩

/-- C2 (amended): for a parsed true-false response with all required keys
present and a list-valued `options` field, the generator accepts it exactly
when the answer is the literal string `"Verdadero"` or `"Falso"`. -/
theorem tf_validation_iff_spanish_literals (d : QDict)
    (htf : qKey d "type" = PyVal.pstr "tf")
    (hkeys : hasAllKeys d = true)
    (hopts : isListVal (qKey d "options") = true) :
    validate_question_data d = true ↔
      (qKey d "answer" = PyVal.pstr "Verdadero"
        ∨ qKey d "answer" = PyVal.pstr "Falso") := by
  unfold validate_question_data
  rw [htf, if_neg (by decide), if_pos rfl]
  simp [hkeys, hopts]

theorem tf_validation_iff_spanish_literals_witness :
    validate_question_data exTfVerdadero = true ↔
      (qKey exTfVerdadero "answer" = PyVal.pstr "Verdadero"
        ∨ qKey exTfVerdadero "answer" = PyVal.pstr "Falso") :=
  tf_validation_iff_spanish_literals exTfVerdadero (by decide) (by decide) (by decide)

/-! ### C8 -/

/-- C8: any question the generator returns has an options list that is a
permutation (equal multiset) of the parsed options; every field other than
`options` is returned unchanged; and a question whose type is not mc is
returned exactly as parsed, its option order untouched. -/
theorem shuffle_permutes_options_only (rand : Nat → Nat) (d res : QDict)
    (hgen : generate_crypto_question_google rand d = some res) :
    List.Perm (getOptions res) (getOptions d)
    ∧ ((getOptions res : List String) : Multiset String) = (getOptions d : List String)
    ∧ (∀ k, k ≠ "options" → qKey res k = qKey d k)
    ∧ (qKey d "type" ≠ PyVal.pstr "mc" → res = d) := by
  unfold generate_crypto_question_google at hgen
  by_cases hval : validate_question_data d = true
  · rw [if_pos hval] at hgen
    simp only [Option.some.injEq] at hgen
    by_cases hmc : qKey d "type" = PyVal.pstr "mc"
    · rw [if_pos hmc] at hgen
      obtain ⟨_, hb, _, _⟩ := validate_parts d hval
      have hpres := options_key_present d hb
      have hopts := getOptions_setKey d (pyShuffle rand (getOptions d)) hpres
      have hperm : List.Perm (getOptions res) (getOptions d) := by
        rw [← hgen, hopts]
        exact pyShuffle_perm rand (getOptions d)
      refine ⟨hperm, ?_, ?_, ?_⟩
      · exact Multiset.coe_eq_coe.mpr hperm
      · intro k hk
        rw [← hgen]
        exact qKey_setKey_ne d "options" k _ hk
      · intro hn
        exact absurd hmc hn
    · rw [if_neg hmc] at hgen
      subst hgen
      exact ⟨List.Perm.refl _, rfl, fun k _ => rfl, fun _ => rfl⟩
  · rw [if_neg hval] at hgen
    cases hgen

theorem shuffle_permutes_options_only_witness :
    List.Perm (getOptions exMc5gen) (getOptions exMc5)
    ∧ ((getOptions exMc5gen : List String) : Multiset String)
        = (getOptions exMc5 : List String)
    ∧ (∀ k, k ≠ "options" → qKey exMc5gen k = qKey exMc5 k)
    ∧ (qKey exMc5 "type" ≠ PyVal.pstr "mc" → exMc5gen = exMc5) :=
  shuffle_permutes_options_only rand0 exMc5 exMc5gen (by decide)

/-! ### C3 -/

/-- C3: in every reachable session state the answered count never exceeds
`max_questions` and `quiz_finished` is true only when the answered count
equals `max_questions`; and once `quiz_finished` is true, the only action
whose step can reset it to false is the explicit restart. -/
theorem answered_within_bound_finished_only_by_restart (s : SessionState)
    (h : Reachable s) :
    s.total_questions ≤ s.max_questions
    ∧ (s.quiz_finished = true → s.total_questions = s.max_questions)
    ∧ (∀ a : QuizAction, s.quiz_finished = true →
        (step a s).quiz_finished = false → a = QuizAction.restart) := by
  obtain ⟨h1, h2, _, _, _⟩ := reachable_inv s h
  refine ⟨h1, h2, ?_⟩
  intro a hfin hstep
  by_contra hne
  rw [quiz_finished_persists a s hfin hne] at hstep
  cases hstep

theorem answered_within_bound_finished_only_by_restart_witness :
    initialState.total_questions ≤ initialState.max_questions
    ∧ (initialState.quiz_finished = true →
        initialState.total_questions = initialState.max_questions)
    ∧ (∀ a : QuizAction, initialState.quiz_finished = true →
        (step a initialState).quiz_finished = false → a = QuizAction.restart) :=
  answered_within_bound_finished_only_by_restart initialState Reachable.init

/-! ### C4 -/

/-- C4: submitting a chosen answer on a loaded, not-yet-submitted question
increments the answered count by exactly one, increments the score exactly
when the choice equals the question's recorded answer, records the choice,
marks the question submitted with a non-null feedback message; and in every
reachable state the score is between 0 and the answered count. -/
theorem submit_updates_counts (choice : String) (s : SessionState) (q : QDict)
    (hfin : s.quiz_finished = false) (hq : s.current_question = some q)
    (hqne : q ≠ []) (hsub : s.submitted = false) :
    (submitTransition choice s).total_questions = s.total_questions + 1
    ∧ (submitTransition choice s).correct_count =
        (if PyVal.pstr choice = qKey q "answer" then s.correct_count + 1
         else s.correct_count)
    ∧ (submitTransition choice s).submitted = true
    ∧ (submitTransition choice s).user_answer = some choice
    ∧ (submitTransition choice s).feedback.isSome = true
    ∧ (∀ t : SessionState, Reachable t →
        0 ≤ t.correct_count ∧ t.correct_count ≤ t.total_questions) := by
  obtain ⟨cq, qr, ua, sub, fb, cc, tq, mq, qf, hist⟩ := s
  replace hfin : qf = false := hfin
  replace hq : cq = some q := hq
  replace hsub : sub = false := hsub
  subst hfin hq hsub
  simp only [submitTransition]
  rw [if_pos trivial, if_pos ⟨hqne, trivial⟩]
  have hscore : ∀ t : SessionState, Reachable t →
      0 ≤ t.correct_count ∧ t.correct_count ≤ t.total_questions :=
    fun t ht => ⟨Nat.zero_le _, (reachable_inv t ht).2.2.2.1⟩
  by_cases hans : PyVal.pstr choice = qKey q "answer"
  · rw [if_pos hans, if_pos hans]
    exact ⟨rfl, rfl, rfl, rfl, rfl, hscore⟩
  · rw [if_neg hans, if_neg hans]
    exact ⟨rfl, rfl, rfl, rfl, rfl, hscore⟩

/-- Session state showing the question `exMc5`, before any submission. -/
def exShowingState : SessionState :=
  { initialState with current_question := some exMc5 }

theorem submit_updates_counts_witness :
    (submitTransition "Op C" exShowingState).total_questions
        = exShowingState.total_questions + 1
    ∧ (submitTransition "Op C" exShowingState).correct_count =
        (if PyVal.pstr "Op C" = qKey exMc5 "answer"
         then exShowingState.correct_count + 1
         else exShowingState.correct_count)
    ∧ (submitTransition "Op C" exShowingState).submitted = true
    ∧ (submitTransition "Op C" exShowingState).user_answer = some "Op C"
    ∧ (submitTransition "Op C" exShowingState).feedback.isSome = true
    ∧ (∀ t : SessionState, Reachable t →
        0 ≤ t.correct_count ∧ t.correct_count ≤ t.total_questions) :=
  submit_updates_counts "Op C" exShowingState exMc5 rfl rfl (by decide) rfl

/-! ### C5 -/

/-- Generator oracle that fails every attempt. -/
def genNone : Nat → Option QDict := fun _ => none

/-- Generator oracle that always produces the question `exMc5`. -/
def genMc5 : Nat → Option QDict := fun _ => some exMc5

/-- C5: when each of the 5 attempts fails or repeats a known text, no question
(and no placeholder) is stored, the exhausted-retries error is displayed,
`question_requested` is reset to false, the counters and history are
untouched — so the state still satisfies the generation guard and the next
render retries — and the step consults at most the first 5 generator
results. -/
theorem exhausted_retries_soft_stop (gen : Nat → Option QDict) (s : SessionState)
    (hfin : s.quiz_finished = false) (hcur : s.current_question = none)
    (hreq : s.question_requested = false)
    (hlt : s.total_questions < s.max_questions)
    (hfail : ∀ k, k < 5 → ∀ d, gen k = some d → qText d ∈ s.asked_questions_set) :
    (genTransition gen s).current_question = none
    ∧ (genTransition gen s).question_requested = false
    ∧ (genTransition gen s).quiz_finished = false
    ∧ (genTransition gen s).total_questions = s.total_questions
    ∧ (genTransition gen s).max_questions = s.max_questions
    ∧ (genTransition gen s).asked_questions_set = s.asked_questions_set
    ∧ genErrorShown gen s = true
    ∧ (∀ gen2 : Nat → Option QDict, (∀ k, k < 5 → gen2 k = gen k) →
        genTransition gen2 s = genTransition gen s) := by
  have hloop : retryLoop gen 5 0 s.asked_questions_set = (none, s.asked_questions_set) :=
    retryLoop_fail_all gen 5 0 s.asked_questions_set
      (fun i _ hi2 d hd => hfail i (by omega) d hd)
  have hg : genTransition gen s =
      { s with question_requested := false,
               asked_questions_set := s.asked_questions_set } := by
    unfold genTransition
    rw [if_pos ⟨hfin, hcur, hreq⟩, if_pos hlt, hloop]
  refine ⟨?_, ?_, ?_, ?_, ?_, ?_, ?_, ?_⟩
  · rw [hg]; exact hcur
  · rw [hg]
  · rw [hg]; exact hfin
  · rw [hg]
  · rw [hg]
  · rw [hg]
  · unfold genErrorShown
    rw [if_pos ⟨hfin, hcur, hreq, hlt⟩, hloop]
    rfl
  · intro gen2 hagree
    have hsame : retryLoop gen2 5 0 s.asked_questions_set
        = retryLoop gen 5 0 s.asked_questions_set :=
      retryLoop_agree gen2 gen 5 0 s.asked_questions_set
        (fun i _ hi2 => hagree i (by omega))
    unfold genTransition
    rw [hsame]

theorem exhausted_retries_soft_stop_witness :
    (genTransition genNone initialState).current_question = none
    ∧ (genTransition genNone initialState).question_requested = false
    ∧ (genTransition genNone initialState).quiz_finished = false
    ∧ (genTransition genNone initialState).total_questions
        = initialState.total_questions
    ∧ (genTransition genNone initialState).max_questions
        = initialState.max_questions
    ∧ (genTransition genNone initialState).asked_questions_set
        = initialState.asked_questions_set
    ∧ genErrorShown genNone initialState = true
    ∧ (∀ gen2 : Nat → Option QDict, (∀ k, k < 5 → gen2 k = genNone k) →
        genTransition gen2 initialState = genTransition genNone initialState) :=
  exhausted_retries_soft_stop genNone initialState rfl rfl rfl (by decide)
    (fun k _ d hd => Option.noConfusion hd)

/-! ### C6 -/

/-- C6: a question is stored as the current question only when its text was
not in the asked-question history at acceptance time; the history then gains
exactly that text; and the retry loop never accepts a dict whose text is
already in the history it was given. -/
theorem dedup_rejects_known_texts (gen : Nat → Option QDict) (s : SessionState)
    (q : QDict) (hcur : s.current_question = none)
    (hstore : (genTransition gen s).current_question = some q) :
    qText q ∉ s.asked_questions_set
    ∧ (genTransition gen s).asked_questions_set =
        insert (qText q) s.asked_questions_set
    ∧ (∀ fuel k hist q2 h2, retryLoop gen fuel k hist = (some q2, h2) →
        qText q2 ∉ hist) := by
  by_cases hguard : s.quiz_finished = false ∧ s.current_question = none
      ∧ s.question_requested = false
  · by_cases hlt : s.total_questions < s.max_questions
    · cases hloop : retryLoop gen 5 0 s.asked_questions_set with
      | mk fst snd =>
        cases fst with
        | none =>
            rw [genTransition, if_pos hguard, if_pos hlt, hloop] at hstore
            replace hstore : s.current_question = some q := hstore
            rw [hcur] at hstore
            cases hstore
        | some q2 =>
            rw [genTransition, if_pos hguard, if_pos hlt, hloop] at hstore
            replace hstore : some q2 = some q := hstore
            injection hstore with hqq
            subst hqq
            obtain ⟨hnot, hins⟩ :=
              retryLoop_some_insert gen 5 0 s.asked_questions_set q2 snd hloop
            refine ⟨hnot, ?_,
              fun fuel k hist q3 h3 hr =>
                (retryLoop_some_insert gen fuel k hist q3 h3 hr).1⟩
            rw [genTransition, if_pos hguard, if_pos hlt, hloop]
            exact hins
    · by_cases hmax : s.total_questions = s.max_questions ∧ s.quiz_finished = false
      · rw [genTransition, if_pos hguard, if_neg hlt, if_pos hmax] at hstore
        replace hstore : (none : Option QDict) = some q := hstore
        cases hstore
      · rw [genTransition, if_pos hguard, if_neg hlt, if_neg hmax] at hstore
        rw [hcur] at hstore
        cases hstore
  · rw [genTransition, if_neg hguard] at hstore
    rw [hcur] at hstore
    cases hstore

theorem dedup_rejects_known_texts_witness :
    qText exMc5 ∉ initialState.asked_questions_set
    ∧ (genTransition genMc5 initialState).asked_questions_set =
        insert (qText exMc5) initialState.asked_questions_set
    ∧ (∀ fuel k hist q2 h2, retryLoop genMc5 fuel k hist = (some q2, h2) →
        qText q2 ∉ hist) :=
  dedup_rejects_known_texts genMc5 initialState exMc5 rfl (by decide)

/-! ### C10 -/

/-- C10: an attempt that fails (the generator returned `None` after a parse
error, schema violation or API error) or that produced a duplicate text leaves
the session untouched: when every attempt of a render is consumed this way the
history, counters and current question are unchanged; the loop's history is
mutated only at the acceptance of a novel question, and only by inserting that
one text; and a dict failing validation is indeed returned as `None`. -/
theorem failed_attempt_frame (gen : Nat → Option QDict) (s : SessionState)
    (hfin : s.quiz_finished = false) (hcur : s.current_question = none)
    (hreq : s.question_requested = false)
    (hlt : s.total_questions < s.max_questions)
    (hfail : (retryLoop gen 5 0 s.asked_questions_set).1 = none) :
    (genTransition gen s).asked_questions_set = s.asked_questions_set
    ∧ (genTransition gen s).correct_count = s.correct_count
    ∧ (genTransition gen s).total_questions = s.total_questions
    ∧ (genTransition gen s).current_question = none
    ∧ (∀ fuel k hist, (retryLoop gen fuel k hist).1 = none →
        (retryLoop gen fuel k hist).2 = hist)
    ∧ (∀ fuel k hist q h2, retryLoop gen fuel k hist = (some q, h2) →
        h2 = insert (qText q) hist ∧ qText q ∉ hist)
    ∧ (∀ rand d, validate_question_data d = false →
        generate_crypto_question_google rand d = none) := by
  have hframe := retryLoop_none_frame gen 5 0 s.asked_questions_set hfail
  have hloop : retryLoop gen 5 0 s.asked_questions_set
      = (none, s.asked_questions_set) := by
    rw [Prod.ext_iff]
    exact ⟨hfail, hframe⟩
  have hg : genTransition gen s =
      { s with question_requested := false,
               asked_questions_set := s.asked_questions_set } := by
    unfold genTransition
    rw [if_pos ⟨hfin, hcur, hreq⟩, if_pos hlt, hloop]
  refine ⟨?_, ?_, ?_, ?_, ?_, ?_, ?_⟩
  · rw [hg]
  · rw [hg]
  · rw [hg]
  · rw [hg]; exact hcur
  · intro fuel k hist h
    exact retryLoop_none_frame gen fuel k hist h
  · intro fuel k hist q h2 hr
    obtain ⟨hnot, hins⟩ := retryLoop_some_insert gen fuel k hist q h2 hr
    exact ⟨hins, hnot⟩
  · intro rand d hval
    simp [generate_crypto_question_google, hval]

theorem failed_attempt_frame_witness :
    (genTransition genNone initialState).asked_questions_set
        = initialState.asked_questions_set
    ∧ (genTransition genNone initialState).correct_count
        = initialState.correct_count
    ∧ (genTransition genNone initialState).total_questions
        = initialState.total_questions
    ∧ (genTransition genNone initialState).current_question = none
    ∧ (∀ fuel k hist, (retryLoop genNone fuel k hist).1 = none →
        (retryLoop genNone fuel k hist).2 = hist)
    ∧ (∀ fuel k hist q h2, retryLoop genNone fuel k hist = (some q, h2) →
        h2 = insert (qText q) hist ∧ qText q ∉ hist)
    ∧ (∀ rand d, validate_question_data d = false →
        generate_crypto_question_google rand d = none) :=
  failed_attempt_frame genNone initialState rfl rfl rfl (by decide) rfl

/-! ### C9 -/

/-- C9: from a finished state the restart handler resets every session field
to its initial default, leaves `max_questions` unchanged (and in reachable
states that value is the constant 10), and clears the history, so no
previously asked text is excluded any more. -/
theorem restart_resets_session_fields (s : SessionState)
    (hfin : s.quiz_finished = true) :
    (restartTransition s).current_question = none
    ∧ (restartTransition s).question_requested = false
    ∧ (restartTransition s).user_answer = none
    ∧ (restartTransition s).submitted = false
    ∧ (restartTransition s).feedback = none
    ∧ (restartTransition s).correct_count = 0
    ∧ (restartTransition s).total_questions = 0
    ∧ (restartTransition s).quiz_finished = false
    ∧ (restartTransition s).asked_questions_set = ∅
    ∧ (restartTransition s).max_questions = s.max_questions
    ∧ (Reachable s → s.max_questions = 10)
    ∧ (∀ t, t ∉ (restartTransition s).asked_questions_set) := by
  have hr : restartTransition s =
      { current_question := none, question_requested := false, user_answer := none,
        submitted := false, feedback := none, correct_count := 0,
        total_questions := 0, max_questions := s.max_questions,
        quiz_finished := false, asked_questions_set := ∅ } := by
    unfold restartTransition
    rw [if_pos hfin]
  rw [hr]
  refine ⟨rfl, rfl, rfl, rfl, rfl, rfl, rfl, rfl, rfl, rfl, ?_, ?_⟩
  · intro h
    exact (reachable_inv s h).2.2.2.2
  · intro t
    simp

/-- Finished session with the spec's restart-scenario score of 7 out of 10 and
one remembered question text. -/
def exFinishedState : SessionState :=
  { initialState with quiz_finished := true, total_questions := 10,
                      correct_count := 7,
                      asked_questions_set := {qText exMc5} }

theorem restart_resets_session_fields_witness :
    (restartTransition exFinishedState).current_question = none
    ∧ (restartTransition exFinishedState).question_requested = false
    ∧ (restartTransition exFinishedState).user_answer = none
    ∧ (restartTransition exFinishedState).submitted = false
    ∧ (restartTransition exFinishedState).feedback = none
    ∧ (restartTransition exFinishedState).correct_count = 0
    ∧ (restartTransition exFinishedState).total_questions = 0
    ∧ (restartTransition exFinishedState).quiz_finished = false
    ∧ (restartTransition exFinishedState).asked_questions_set = ∅
    ∧ (restartTransition exFinishedState).max_questions
        = exFinishedState.max_questions
    ∧ (Reachable exFinishedState → exFinishedState.max_questions = 10)
    ∧ (∀ t, t ∉ (restartTransition exFinishedState).asked_questions_set) :=
  restart_resets_session_fields exFinishedState rfl

/-! ### C7 -/

/-- Python set of question texts built by repeated `add`
(src/app6.py line 179): only the membership structure survives; the
insertion order is not recorded by a Python `set`. -/
def pySetOfList (xs : List String) : Finset String :=
  xs.foldl (fun s x => insert x s) ∅

/-- The 10 most recently asked texts of an insertion-ordered history, i.e.
Python `xs[-10:]` applied to the history in ask order — what the spec's
dedup hint is supposed to be. -/
def lastTenTexts (xs : List String) : List String := xs.drop (xs.length - 10)

/-- Eleven distinct question texts in the order they were asked. -/
def histA : List String :=
  ["q01", "q02", "q03", "q04", "q05", "q06", "q07", "q08", "q09", "q10", "q11"]

/-- The same eleven texts asked in the opposite order. -/
def histB : List String := histA.reverse

/-- C7: the hint `list(st.session_state.asked_questions_set)[-10:]`
(src/app6.py line 71) is a function of the unordered set alone, but the 10
most recently asked texts are not recoverable from that set: two sessions
that asked the same 11 texts in opposite orders have equal sets yet different
most-recent-10 (already as sets of texts), so no function of the stored set —
in particular the code's hint — can return the most recent 10 for both. -/
theorem dedup_hint_order_information_lost :
    pySetOfList histA = pySetOfList histB
    ∧ lastTenTexts histA ≠ lastTenTexts histB
    ∧ "q01" ∈ lastTenTexts histB
    ∧ "q01" ∉ lastTenTexts histA
    ∧ ∀ f : Finset String → List String,
        f (pySetOfList histA) = f (pySetOfList histB) := by
  have h : pySetOfList histA = pySetOfList histB := by decide
  exact ⟨h, by decide, by decide, by decide, fun f => congrArg f h⟩
